import Mathlib

/-!
Shallow embedding of the CheatPy vectorized "Cheat" card-game engine
(src/CheatPy/Cheat.py, src/CheatPy/components/player.py).

Hands, the central pile and played-card vectors are numpy integer arrays of
length `NUM_UNIQUE_CARDS = 13`; they are embedded as `List ℤ`.  Elementwise
numpy arithmetic on equal-length arrays becomes `List.zipWith`.  Python calls
that raise an exception (the assert at the top of `step`, and the malformed
truth test inside `is_bluff`) are embedded as `Option` results, with `none`
for the raising executions.
-/

namespace CheatPy

/-- Elementwise numpy `+` on two integer vectors (used on equal-length arrays). -/
def vecAdd (xs ys : List ℤ) : List ℤ := List.zipWith (· + ·) xs ys

/-- Elementwise numpy `-` on two integer vectors (used on equal-length arrays). -/
def vecSub (xs ys : List ℤ) : List ℤ := List.zipWith (· - ·) xs ys

/-- numpy `np.all(xs <= ys)` for equal-length integer vectors. -/
def vecLe (xs ys : List ℤ) : Bool := (List.zipWith (fun a b => decide (a ≤ b)) xs ys).all id

/-- Auxiliary loop for `npArgmax`: scan the tail, keeping the current maximum and
the index of its first occurrence. -/
def npArgmaxAux : List ℤ → ℤ → ℕ → ℕ → ℕ
  | [], _, _, best => best
  | x :: xs, cur, i, best =>
    if cur < x then npArgmaxAux xs x (i + 1) i else npArgmaxAux xs cur (i + 1) best

/-- numpy `np.argmax`: index of the first occurrence of the maximum value.
On a 0-d (scalar) argument numpy treats the flattened one-element view, so
argmax of a scalar is 0; we model a scalar argument as a one-element list. -/
def npArgmax : List ℤ → ℕ
  | [] => 0
  | x :: xs => npArgmaxAux xs x 1 0

/-- Cheat.py line 9 of `__init__`: `self.invalid_penalty = -99`. -/
def invalidPenalty : ℤ := -99

/-- The `cards_played` accumulation of `output_actions_to_history_actions`
(Cheat.py lines 154-156): start from `np.zeros(13)` and add each of the four
13-wide card slots `actions[17 + i*13 : 17 + (i+1)*13]`. -/
def cardsPlayedOf (actions : List ℤ) : List ℤ :=
  vecAdd
    (vecAdd
      (vecAdd
        (vecAdd (List.replicate 13 (0 : ℤ)) ((actions.drop 17).take 13))
        ((actions.drop (17 + 13)).take 13))
      ((actions.drop (17 + 2 * 13)).take 13))
    ((actions.drop (17 + 3 * 13)).take 13)

/-- Decoder `CheatGame.output_actions_to_history_actions` (Cheat.py lines 134-163):
decode the one-hot multi-head action vector into the compact 16-wide history
record `[count, rank, cards_played (13), challenge]`.
The count head is `np.argmax(actions[:4])` (no offset is added), the rank head
is `np.argmax(actions[4:17]) + 2`, and the challenge head is
`np.argmax(actions[-1])` — an argmax over the scalar last entry, i.e. over its
one-element flattened view, which is always 0. -/
def output_actions_to_history_actions (actions : List ℤ) : List ℤ :=
  let num_cards_to_declare : ℤ := (npArgmax (actions.take 4) : ℤ)
  let rank_declared : ℤ := (npArgmax ((actions.drop 4).take 13) : ℤ) + 2
  let cards_played : List ℤ := cardsPlayedOf actions
  let challenge : ℤ := (npArgmax [actions.getLastD 0] : ℤ)
  [num_cards_to_declare, rank_declared] ++ cards_played ++ [challenge]

/-- The engine state of `CheatGame` (for the hard-coded two-player engine):
both players' hands (`Player.hand`, 13-wide count vectors), the flat full
history `self.state`, the two per-player history streams, the current-player
index, the central pile, the last-claim-was-bluff flag, the round counter, the
configured maximum number of rounds, and the terminal flag. -/
structure CheatGame where
  hand0 : List ℤ
  hand1 : List ℤ
  state : List ℤ
  history0 : List ℤ
  history1 : List ℤ
  currentPlayer : Fin 2
  centralPile : List ℤ
  ifLastClaimBluff : Bool
  numRounds : ℕ
  maxNumberOfRounds : ℕ
  done : Bool
deriving DecidableEq

/-- Hand of player `i`, i.e. `self.players[i].hand`, in the two-player engine. -/
def hand (g : CheatGame) (i : Fin 2) : List ℤ :=
  if i = 0 then g.hand0 else g.hand1

/-- Replace `self.players[i].hand` in the two-player engine. -/
def setHand (g : CheatGame) (i : Fin 2) (h : List ℤ) : CheatGame :=
  if i = 0 then { g with hand0 := h } else { g with hand1 := h }

/-- History stream `self.player_history[i]` of player `i` in the two-player engine. -/
def history (g : CheatGame) (i : Fin 2) : List ℤ :=
  if i = 0 then g.history0 else g.history1

/-- Replace `self.player_history[i]` in the two-player engine. -/
def setHistory (g : CheatGame) (i : Fin 2) (h : List ℤ) : CheatGame :=
  if i = 0 then { g with history0 := h } else { g with history1 := h }

/-- Method `Player.add_cards` (player.py lines 9-15): `self.hand += cards`. -/
def add_cards (hand cards : List ℤ) : List ℤ := vecAdd hand cards

/-- Method `Player.remove_cards` (player.py lines 17-23): `self.hand -= cards`.
There is no check of any kind: entries may become negative. -/
def remove_cards (hand cards : List ℤ) : List ℤ := vecSub hand cards

/-- Bound `self.max_history_len = ((2 + NUM_UNIQUE_CARDS + 1) + 3) * self.max_number_of_rounds`
(Cheat.py lines 69-71). -/
def max_history_len (g : CheatGame) : ℕ := ((2 + 13 + 1) + 3) * g.maxNumberOfRounds

/-- Observation `CheatGame.get_info_state` (Cheat.py lines 109-132): the current player's
hand concatenated with their history stream zero-padded to `max_history_len`. -/
def get_info_state (g : CheatGame) : List ℤ :=
  hand g g.currentPlayer ++
    (history g g.currentPlayer ++
      List.replicate (max_history_len g - (history g g.currentPlayer).length) 0)

/-- Predicate `CheatGame.is_terminal` (Cheat.py lines 300-311):
`self.num_rounds >= self.max_number_of_rounds or any(len(player.hand) == 0 ...)`.
`player.hand` is the 13-wide numpy count vector, so `len(player.hand)` is the
array length (13 for well-formed states), not the number of cards held. -/
def is_terminal (g : CheatGame) : Bool :=
  decide (g.maxNumberOfRounds ≤ g.numRounds) ||
    decide (g.hand0.length = 0) || decide (g.hand1.length = 0)

/-- Reward `CheatGame.get_reward` (Cheat.py lines 313-334): 0 while not done; when done,
`1 if len(self.players[player_idx].hand) > len(self.players[1 - player_idx].hand) else -1`,
again comparing numpy array lengths of the two hands. -/
def get_reward (g : CheatGame) (player_idx : Fin 2) : ℤ :=
  if g.done then
    if (hand g (1 - player_idx)).length < (hand g player_idx).length then 1 else -1
  else 0

/-- Predicate `CheatGame.is_bluff` (Cheat.py lines 262-282).
`idxs = np.where(selected_cards > 0)[0]` collects the rank indices with a
positive play count.  The guard `if idxs > 1:` truth-tests the elementwise
comparison array: for a one-element `idxs` this is `idxs[0] > 1`; for an empty
or longer `idxs` the truth test (or the following `idxs[0]`) raises, embedded
as `none`.  In the defined case the result is `True` when the single played
rank index exceeds 1, else `idx != selected_rank - 2`.
`selected_suite` is accepted but never used, as in the source. -/
def is_bluff (selected_suite selected_rank : ℤ) (selected_cards : List ℤ) :
    Option Bool :=
  let idxs := (List.range selected_cards.length).filter
    (fun i => decide (0 < selected_cards.getD i 0))
  match idxs with
  | [idx] => some (if 1 < idx then true else decide ((idx : ℤ) ≠ selected_rank - 2))
  | _ => none

/-- Resolution `CheatGame.resolve_challenge` (Cheat.py lines 284-298): if the recorded
bluff flag is set, the previous player `1 - current` absorbs the central pile,
else the current (challenging) player absorbs it; the pile is then reset to
`np.zeros(13)`. -/
def resolve_challenge (g : CheatGame) : CheatGame :=
  let g' :=
    if g.ifLastClaimBluff then
      setHand g (1 - g.currentPlayer) (add_cards (hand g (1 - g.currentPlayer)) g.centralPile)
    else
      setHand g g.currentPlayer (add_cards (hand g g.currentPlayer) g.centralPile)
  { g' with centralPile := List.replicate 13 0 }

/-- Legality check `CheatGame.is_valid_action` (Cheat.py lines 336-374): the selected cards
must be covered by the current player's hand, their total must equal the
declared count, and a (truthy) challenge additionally requires a non-empty
flat history whose last entry is not 1. -/
def is_valid_action (g : CheatGame) (selected_suite selected_rank : ℤ)
    (selected_cards : List ℤ) (challenge : ℤ) : Bool :=
  if vecLe selected_cards (hand g g.currentPlayer) = false then false
  else if selected_cards.sum ≠ selected_suite then false
  else if challenge ≠ 0 then
    if g.state.length = 0 then false
    else if g.state.getLastD 0 = 1 then false
    else true
  else true

/-- Method `CheatGame.add_to_pile` (Cheat.py lines 253-260): `self.central_pile += cards`. -/
def add_to_pile (g : CheatGame) (cards : List ℤ) : CheatGame :=
  { g with centralPile := vecAdd g.centralPile cards }

/-- The history updates of `step` (Cheat.py lines 210-219): append the full
compact record to the flat state and to the acting player's stream, and the
redacted `[suite, rank, challenge]` triple to the opponent's stream. -/
def appendHistories (g : CheatGame) (ar : List ℤ)
    (selected_suite selected_rank challenge : ℤ) : CheatGame :=
  let g1 := { g with state := g.state ++ ar }
  let g2 := setHistory g1 g1.currentPlayer (history g1 g1.currentPlayer ++ ar)
  setHistory g2 (1 - g2.currentPlayer)
    (history g2 (1 - g2.currentPlayer) ++ [selected_suite, selected_rank, challenge])

/-- The tail of `step` (Cheat.py lines 235-247): set `done` when terminal,
otherwise advance the current player `(current + 1) % num_players`; return the
info state, the reward of the now-current player, and the terminal flag. -/
def finishStep (g : CheatGame) : CheatGame × List ℤ × ℤ × Bool :=
  let g' := if is_terminal g then { g with done := true }
            else { g with currentPlayer := g.currentPlayer + 1 }
  (g', get_info_state g', get_reward g' g'.currentPlayer, g'.done)

/-- Transition `CheatGame.step` (Cheat.py lines 165-247).  `none` embeds a raising call
(the `assert not self.done` at entry, or the exception raised inside
`is_bluff`).  The round counter is incremented before the validity check; an
invalid action returns the info state, the penalty and the done flag with no
further mutation. -/
def step (g : CheatGame) (actions : List ℤ) :
    Option (CheatGame × List ℤ × ℤ × Bool) :=
  if g.done then none
  else
    let ar := output_actions_to_history_actions actions
    let selected_suite := ar.getD 0 0
    let selected_rank := ar.getD 1 0
    let selected_cards := (ar.drop 2).take 13
    let challenge := ar.getLastD 0
    let g1 := { g with numRounds := g.numRounds + 1 }
    if is_valid_action g1 selected_suite selected_rank selected_cards challenge = false then
      some (g1, get_info_state g1, invalidPenalty, g1.done)
    else
      let g2 := appendHistories g1 ar selected_suite selected_rank challenge
      if challenge ≠ 0 then
        some (finishStep (resolve_challenge g2))
      else
        let g3 := setHand g2 g2.currentPlayer
          (remove_cards (hand g2 g2.currentPlayer) selected_cards)
        let g4 := add_to_pile g3 selected_cards
        match is_bluff selected_suite selected_rank selected_cards with
        | none => none
        | some b =>
          let g5 := if b then { g4 with ifLastClaimBluff := true } else g4
          some (finishStep g5)

/-- The engine state immediately after `CheatGame.reset` (Cheat.py lines
84-107), with the dealt hands supplied externally: the spec treats shuffling
and dealing as a black-box source of a random deal.  Reset installs empty
histories, player 0 to move, an all-zero central pile, a cleared bluff flag,
round counter 0 and `done = False`. -/
def resetState (hand0 hand1 : List ℤ) (maxRounds : ℕ) : CheatGame :=
  { hand0 := hand0, hand1 := hand1, state := [], history0 := [], history1 := [],
    currentPlayer := 0, centralPile := List.replicate 13 0, ifLastClaimBluff := false,
    numRounds := 0, maxNumberOfRounds := maxRounds, done := false }

/-- Run a sequence of actions through `step`, threading the state;
`none` if any call raises. -/
def runSteps : CheatGame → List (List ℤ) → Option CheatGame
  | g, [] => some g
  | g, a :: as =>
    match step g a with
    | none => none
    | some (g', _) => runSteps g' as

/-- Total number of cards in play: both hands plus the central pile. -/
def totalCards (g : CheatGame) : ℤ :=
  g.hand0.sum + g.hand1.sum + g.centralPile.sum

/-- Shape well-formedness: hands and pile are 13-wide vectors. -/
def WF (g : CheatGame) : Prop :=
  g.hand0.length = 13 ∧ g.hand1.length = 13 ∧ g.centralPile.length = 13

/-- Unit 13-wide count vector: one card of rank index `i`. -/
def e (i : ℕ) : List ℤ := (List.replicate 13 0).set i 1

/-- All-ones 13-wide count vector: one card of every rank. -/
def ones13 : List ℤ := List.replicate 13 1

/-- A one-hot 70-wide action: count head `[0,1,0,0]`, rank head one-hot at
`rankIdx`, first card slot one card of rank `rankIdx`, remaining slots empty,
challenge bit 0 — i.e. truthfully playing one card of rank index `rankIdx`
while declaring that very rank. -/
def playAction (rankIdx : ℕ) : List ℤ :=
  [0, 1, 0, 0] ++ e rankIdx ++ e rankIdx ++ List.replicate 13 0 ++
    List.replicate 13 0 ++ List.replicate 13 0 ++ [0]

/-- The compact record decoded from `playAction 0`: one card declared, rank 2,
one card of rank index 0 played, no challenge. -/
def arPlay0 : List ℤ := [1, 2] ++ e 0 ++ [0]

/-- The engine state reached from `resetState (e 0) ones13 2` by the valid play
`playAction 0` (player 0 truthfully plays its single rank-0 card). -/
def gPost : CheatGame :=
  { hand0 := List.replicate 13 0, hand1 := ones13, state := arPlay0,
    history0 := arPlay0, history1 := [1, 2, 0], currentPlayer := 1,
    centralPile := e 0, ifLastClaimBluff := false, numRounds := 1,
    maxNumberOfRounds := 2, done := false }

/-- The information state returned together with `gPost`. -/
def infoPost : List ℤ := ones13 ++ [1, 2, 0] ++ List.replicate 35 0

/-- Reset state `resetState (e 0) ones13 2` with the bluff flag forced on. -/
def gFlagged : CheatGame :=
  { resetState (e 0) ones13 2 with ifLastClaimBluff := true }

/-- The state reached from `gFlagged` by the valid play `playAction 0`. -/
def gFlaggedPost : CheatGame := { gPost with ifLastClaimBluff := true }

/-- A reset state whose flat history ends in a non-challenge record bit. -/
def gW8 : CheatGame := { resetState ones13 ones13 2 with state := [0] }

/-- The decode-plus-validate guard of `step` (Cheat.py lines 189-202): decode
the one-hot action and test `is_valid_action` on the resulting components.
(`is_valid_action` reads no field that the round-counter increment touches.) -/
def decodedValid (g : CheatGame) (actions : List ℤ) : Bool :=
  let ar := output_actions_to_history_actions actions
  is_valid_action g (ar.getD 0 0) (ar.getD 1 0) ((ar.drop 2).take 13) (ar.getLastD 0)

/-- Claim C1. The claim says a terminal step rewards the player with strictly fewer
cards with +1.  Counter-evaluation: from hands of 1 card (player 0) versus 13
cards (player 1) with a 1-round cap, player 0 validly plays its card; the step
is terminal (`done = true`, current player still 0), player 0's hand sums to 0
against 13, yet the returned reward is −1.  `get_reward` compares `len()` of
the two 13-slot numpy hand vectors (always 13 against 13), so every player
receives −1 at termination. -/
theorem terminal_reward_is_minus_one_for_smaller_hand :
    (step (resetState (e 0) ones13 1) (playAction 0)).map
      (fun r => (r.1.hand0.sum, r.1.hand1.sum, r.1.currentPlayer, r.2.2.1, r.2.2.2)) =
      some (0, 13, 0, -1, true) := by decide

/-- Claim C2. The claim says a step that empties a player's hand reports
`done = true` at that very step.  Counter-evaluation: player 0 holds exactly
one card and validly plays it (round 1 of a 2-round cap); afterwards player
0's hand is the all-zero vector, yet the step returns `done = false`:
`is_terminal` tests `len(player.hand) == 0` on the 13-slot numpy vector, which
never holds. -/
theorem emptied_hand_does_not_terminate :
    (step (resetState (e 0) ones13 2) (playAction 0)).map
      (fun r => (r.1.hand0, r.2.2.2)) = some (List.replicate 13 0, false) := by decide

/-- Claim C3 counterexample.  The claim says an illegal action leaves the entire
engine state — including the round counter — unchanged.  Counter-evaluation:
player 0 holds no cards and attempts to play one (illegal); hands, pile,
histories and turn are unchanged and the call returns the penalty −99 with
`done = false`, but the round counter moves from 0 to 1, because `step`
increments `self.num_rounds` before the validity check. -/
theorem illegal_step_increments_round_counter :
    (resetState (List.replicate 13 0) ones13 2).numRounds = 0 ∧
    (step (resetState (List.replicate 13 0) ones13 2) (playAction 0)).map
      (fun r => (r.1.numRounds, r.1.hand0, r.1.hand1, r.1.centralPile, r.1.state,
        r.1.history0, r.1.history1, r.1.currentPlayer, r.2.2.1, r.2.2.2)) =
      some (1, List.replicate 13 0, ones13, List.replicate 13 0, [], [], [], 0, -99, false) :=
  ⟨rfl, rfl⟩

/-- Legality checking reads no state component that the round-counter
increment changes, so it is invariant under updating `numRounds`. -/
theorem is_valid_action_numRounds (g : CheatGame) (n : ℕ) (s r ch : ℤ) (c : List ℤ) :
    is_valid_action { g with numRounds := n } s r c ch = is_valid_action g s r c ch := rfl

/-- Observation assembly reads neither the round counter nor the terminal flag. -/
theorem get_info_state_numRounds (g : CheatGame) (n : ℕ) (d : Bool) :
    get_info_state { g with numRounds := n, done := d } = get_info_state g := rfl

/-- Claim C3 amended: for every illegal action on a non-terminal game, the call
returns the unchanged information state, the fixed penalty −99 and
`done = false`, and the resulting engine state is the previous state with
only the round counter incremented by one (hands, pile, histories, turn
pointer and bluff flag untouched). -/
theorem illegal_action_inert_except_round_counter (g : CheatGame) (a : List ℤ)
    (hdone : g.done = false) (hinv : decodedValid g a = false) :
    step g a = some ({ g with numRounds := g.numRounds + 1 },
      get_info_state g, invalidPenalty, false) := by
  have hval : is_valid_action { g with numRounds := g.numRounds + 1 }
      ((output_actions_to_history_actions a).getD 0 0)
      ((output_actions_to_history_actions a).getD 1 0)
      (((output_actions_to_history_actions a).drop 2).take 13)
      ((output_actions_to_history_actions a).getLastD 0) = false := hinv
  simp only [step, hval]
  simp only [hdone]
  simp [get_info_state_numRounds g (g.numRounds + 1) false]

/-- Claim C3 witness. -/
theorem illegal_action_inert_except_round_counter_witness :
    step (resetState (List.replicate 13 0) ones13 2) (playAction 0) =
      some ({ resetState (List.replicate 13 0) ones13 2 with
                numRounds := (resetState (List.replicate 13 0) ones13 2).numRounds + 1 },
        get_info_state (resetState (List.replicate 13 0) ones13 2), invalidPenalty, false) :=
  illegal_action_inert_except_round_counter
    (resetState (List.replicate 13 0) ones13 2) (playAction 0) rfl (by decide)

/-- Claim C4. The claim says a challenge of a truthful claim (all played cards of
the declared rank) makes the challenger absorb the pile.  Counter-evaluation:
player 0 truthfully plays one card of rank index 5 declaring rank 7; the
engine nevertheless records the claim as a bluff (`is_bluff` returns `True`
for any single played rank index above 1), so resolving a challenge hands the
central pile back to the claimant (player 0) while the challenger's hand is
unchanged; the pile is cleared. -/
theorem truthful_claim_challenge_resolves_against_claimant :
    (step (resetState (e 5) ones13 5) (playAction 5)).map
      (fun r => (r.1.ifLastClaimBluff, r.1.currentPlayer, r.1.centralPile,
        (resolve_challenge r.1).hand0, (resolve_challenge r.1).hand1,
        (resolve_challenge r.1).centralPile)) =
      some (true, 1, e 5, e 5, ones13, List.replicate 13 0) := rfl

/-- Claim C5. The claim says `is_bluff` returns `False` exactly on uniform plays of
the declared rank and is defined on every 13-wide vector.  Counter-evaluation:
a truthful single card of rank index 5 declared as rank 7 is reported a bluff
(`some true`); a play spanning two distinct ranks raises instead of returning
`True` (`none`); an empty play raises as well (`none`). -/
theorem is_bluff_misflags_and_raises :
    is_bluff 1 7 (e 5) = some true ∧
    is_bluff 2 2 (vecAdd (e 0) (e 1)) = none ∧
    is_bluff 0 2 (List.replicate 13 0) = none := by decide

/-- Claim C6. The claim says a one-hot count head with the 1 at position `i` decodes
to `i + 1`.  Counter-evaluation: with count head `[1,0,0,0]` (position 0) the
decoded record starts with 0, not 1 — `np.argmax(actions[:4])` is taken with
no offset. -/
theorem count_head_decodes_without_offset :
    (output_actions_to_history_actions
      ([1, 0, 0, 0] ++ e 0 ++ e 0 ++ List.replicate 13 0 ++ List.replicate 13 0 ++
        List.replicate 13 0 ++ [0])).getD 0 0 = 0 := by decide

/-- Claim C9 counterexample.  The claim says subtraction fails with
`InvalidOperation` when an entry would go negative, leaving the inventory
unchanged.  Counter-evaluation: removing one card of rank 0 from an empty hand
succeeds and produces an entry of −1 — the hand is not left unchanged and no
error is raised (`Player.remove_cards` is an unchecked `self.hand -= cards`). -/
theorem remove_cards_goes_negative_without_error :
    remove_cards (List.replicate 13 0) (e 0) = (-1 : ℤ) :: List.replicate 12 0 ∧
    remove_cards (List.replicate 13 0) (e 0) ≠ List.replicate 13 0 := by decide

/-- Claim C9 amended: `remove_cards` decrements each entry by the given count
unconditionally — it never fails, performs no negativity check, and entries
may become negative. -/
theorem remove_cards_subtracts_pointwise (hand cards : List ℤ) (i : ℕ)
    (hi : i < hand.length) (hj : i < cards.length) :
    (remove_cards hand cards).getD i 0 = hand.getD i 0 - cards.getD i 0 := by
  induction hand generalizing cards i with
  | nil => simp at hi
  | cons x xs ih =>
    cases cards with
    | nil => simp at hj
    | cons y ys =>
      cases i with
      | zero => rfl
      | succ n =>
        simpa [remove_cards, vecSub] using
          ih ys n (Nat.lt_of_succ_lt_succ hi) (Nat.lt_of_succ_lt_succ hj)

theorem length_vecAdd (xs ys : List ℤ) : (vecAdd xs ys).length = min xs.length ys.length :=
  List.length_zipWith ..

theorem length_vecSub (xs ys : List ℤ) : (vecSub xs ys).length = min xs.length ys.length :=
  List.length_zipWith ..

theorem sum_vecAdd (xs ys : List ℤ) (h : xs.length = ys.length) :
    (vecAdd xs ys).sum = xs.sum + ys.sum := by
  induction xs generalizing ys with
  | nil => cases ys <;> simp_all [vecAdd]
  | cons x xs ih =>
    cases ys with
    | nil => simp at h
    | cons y ys =>
      have := ih ys (by simpa using h)
      simp only [vecAdd, List.zipWith_cons_cons, List.sum_cons] at this ⊢
      rw [this]; ring

theorem sum_vecSub (xs ys : List ℤ) (h : xs.length = ys.length) :
    (vecSub xs ys).sum = xs.sum - ys.sum := by
  induction xs generalizing ys with
  | nil => cases ys <;> simp_all [vecSub]
  | cons x xs ih =>
    cases ys with
    | nil => simp at h
    | cons y ys =>
      have := ih ys (by simpa using h)
      simp only [vecSub, List.zipWith_cons_cons, List.sum_cons] at this ⊢
      rw [this]; ring

theorem sum_replicate_zero (n : ℕ) : (List.replicate n (0 : ℤ)).sum = 0 := by
  induction n with
  | zero => rfl
  | succ m ih => simpa using ih

@[simp] theorem setHistory_hand0 (g : CheatGame) (i : Fin 2) (h : List ℤ) :
    (setHistory g i h).hand0 = g.hand0 := by
  unfold setHistory; split <;> rfl

@[simp] theorem setHistory_hand1 (g : CheatGame) (i : Fin 2) (h : List ℤ) :
    (setHistory g i h).hand1 = g.hand1 := by
  unfold setHistory; split <;> rfl

@[simp] theorem setHistory_state (g : CheatGame) (i : Fin 2) (h : List ℤ) :
    (setHistory g i h).state = g.state := by
  unfold setHistory; split <;> rfl

@[simp] theorem setHistory_centralPile (g : CheatGame) (i : Fin 2) (h : List ℤ) :
    (setHistory g i h).centralPile = g.centralPile := by
  unfold setHistory; split <;> rfl

@[simp] theorem setHistory_currentPlayer (g : CheatGame) (i : Fin 2) (h : List ℤ) :
    (setHistory g i h).currentPlayer = g.currentPlayer := by
  unfold setHistory; split <;> rfl

@[simp] theorem setHistory_ifLastClaimBluff (g : CheatGame) (i : Fin 2) (h : List ℤ) :
    (setHistory g i h).ifLastClaimBluff = g.ifLastClaimBluff := by
  unfold setHistory; split <;> rfl

@[simp] theorem setHistory_numRounds (g : CheatGame) (i : Fin 2) (h : List ℤ) :
    (setHistory g i h).numRounds = g.numRounds := by
  unfold setHistory; split <;> rfl

@[simp] theorem setHistory_maxNumberOfRounds (g : CheatGame) (i : Fin 2) (h : List ℤ) :
    (setHistory g i h).maxNumberOfRounds = g.maxNumberOfRounds := by
  unfold setHistory; split <;> rfl

@[simp] theorem setHistory_done (g : CheatGame) (i : Fin 2) (h : List ℤ) :
    (setHistory g i h).done = g.done := by
  unfold setHistory; split <;> rfl

@[simp] theorem setHand_state (g : CheatGame) (i : Fin 2) (h : List ℤ) :
    (setHand g i h).state = g.state := by
  unfold setHand; split <;> rfl

@[simp] theorem setHand_centralPile (g : CheatGame) (i : Fin 2) (h : List ℤ) :
    (setHand g i h).centralPile = g.centralPile := by
  unfold setHand; split <;> rfl

@[simp] theorem setHand_currentPlayer (g : CheatGame) (i : Fin 2) (h : List ℤ) :
    (setHand g i h).currentPlayer = g.currentPlayer := by
  unfold setHand; split <;> rfl

@[simp] theorem setHand_ifLastClaimBluff (g : CheatGame) (i : Fin 2) (h : List ℤ) :
    (setHand g i h).ifLastClaimBluff = g.ifLastClaimBluff := by
  unfold setHand; split <;> rfl

@[simp] theorem setHand_numRounds (g : CheatGame) (i : Fin 2) (h : List ℤ) :
    (setHand g i h).numRounds = g.numRounds := by
  unfold setHand; split <;> rfl

@[simp] theorem setHand_maxNumberOfRounds (g : CheatGame) (i : Fin 2) (h : List ℤ) :
    (setHand g i h).maxNumberOfRounds = g.maxNumberOfRounds := by
  unfold setHand; split <;> rfl

@[simp] theorem setHand_done (g : CheatGame) (i : Fin 2) (h : List ℤ) :
    (setHand g i h).done = g.done := by
  unfold setHand; split <;> rfl

@[simp] theorem appendHistories_hand0 (g : CheatGame) (ar : List ℤ) (s r ch : ℤ) :
    (appendHistories g ar s r ch).hand0 = g.hand0 := by
  unfold appendHistories; simp

@[simp] theorem appendHistories_hand1 (g : CheatGame) (ar : List ℤ) (s r ch : ℤ) :
    (appendHistories g ar s r ch).hand1 = g.hand1 := by
  unfold appendHistories; simp

@[simp] theorem appendHistories_centralPile (g : CheatGame) (ar : List ℤ) (s r ch : ℤ) :
    (appendHistories g ar s r ch).centralPile = g.centralPile := by
  unfold appendHistories; simp

@[simp] theorem appendHistories_currentPlayer (g : CheatGame) (ar : List ℤ) (s r ch : ℤ) :
    (appendHistories g ar s r ch).currentPlayer = g.currentPlayer := by
  unfold appendHistories; simp

@[simp] theorem appendHistories_ifLastClaimBluff (g : CheatGame) (ar : List ℤ) (s r ch : ℤ) :
    (appendHistories g ar s r ch).ifLastClaimBluff = g.ifLastClaimBluff := by
  unfold appendHistories; simp

@[simp] theorem appendHistories_numRounds (g : CheatGame) (ar : List ℤ) (s r ch : ℤ) :
    (appendHistories g ar s r ch).numRounds = g.numRounds := by
  unfold appendHistories; simp

@[simp] theorem appendHistories_maxNumberOfRounds (g : CheatGame) (ar : List ℤ) (s r ch : ℤ) :
    (appendHistories g ar s r ch).maxNumberOfRounds = g.maxNumberOfRounds := by
  unfold appendHistories; simp

@[simp] theorem appendHistories_done (g : CheatGame) (ar : List ℤ) (s r ch : ℤ) :
    (appendHistories g ar s r ch).done = g.done := by
  unfold appendHistories; simp

@[simp] theorem appendHistories_state (g : CheatGame) (ar : List ℤ) (s r ch : ℤ) :
    (appendHistories g ar s r ch).state = g.state ++ ar := by
  unfold appendHistories; simp

@[simp] theorem resolve_challenge_state (g : CheatGame) :
    (resolve_challenge g).state = g.state := by
  unfold resolve_challenge; split <;> simp

@[simp] theorem resolve_challenge_ifLastClaimBluff (g : CheatGame) :
    (resolve_challenge g).ifLastClaimBluff = g.ifLastClaimBluff := by
  unfold resolve_challenge; split <;> simp

@[simp] theorem finishStep_fst_state (g : CheatGame) :
    (finishStep g).1.state = g.state := by
  unfold finishStep; split <;> rfl

@[simp] theorem finishStep_fst_ifLastClaimBluff (g : CheatGame) :
    (finishStep g).1.ifLastClaimBluff = g.ifLastClaimBluff := by
  unfold finishStep; split <;> rfl

@[simp] theorem finishStep_fst_hand0 (g : CheatGame) :
    (finishStep g).1.hand0 = g.hand0 := by
  unfold finishStep; split <;> rfl

@[simp] theorem finishStep_fst_hand1 (g : CheatGame) :
    (finishStep g).1.hand1 = g.hand1 := by
  unfold finishStep; split <;> rfl

@[simp] theorem finishStep_fst_centralPile (g : CheatGame) :
    (finishStep g).1.centralPile = g.centralPile := by
  unfold finishStep; split <;> rfl

/-- Claim C9 witness. -/
theorem remove_cards_subtracts_pointwise_witness :
    (remove_cards (List.replicate 13 0) (e 0)).getD 0 0 =
      (List.replicate 13 (0 : ℤ)).getD 0 0 - (e 0).getD 0 0 :=
  remove_cards_subtracts_pointwise (List.replicate 13 0) (e 0) 0 (by decide) (by decide)

@[simp] theorem add_to_pile_hand0 (g : CheatGame) (c : List ℤ) :
    (add_to_pile g c).hand0 = g.hand0 := rfl

@[simp] theorem add_to_pile_hand1 (g : CheatGame) (c : List ℤ) :
    (add_to_pile g c).hand1 = g.hand1 := rfl

@[simp] theorem add_to_pile_state (g : CheatGame) (c : List ℤ) :
    (add_to_pile g c).state = g.state := rfl

@[simp] theorem add_to_pile_ifLastClaimBluff (g : CheatGame) (c : List ℤ) :
    (add_to_pile g c).ifLastClaimBluff = g.ifLastClaimBluff := rfl

@[simp] theorem add_to_pile_currentPlayer (g : CheatGame) (c : List ℤ) :
    (add_to_pile g c).currentPlayer = g.currentPlayer := rfl

@[simp] theorem add_to_pile_numRounds (g : CheatGame) (c : List ℤ) :
    (add_to_pile g c).numRounds = g.numRounds := rfl

@[simp] theorem add_to_pile_maxNumberOfRounds (g : CheatGame) (c : List ℤ) :
    (add_to_pile g c).maxNumberOfRounds = g.maxNumberOfRounds := rfl

@[simp] theorem add_to_pile_done (g : CheatGame) (c : List ℤ) :
    (add_to_pile g c).done = g.done := rfl

theorem totalCards_flag (g : CheatGame) (b : Bool) :
    totalCards { g with ifLastClaimBluff := b } = totalCards g := rfl

theorem WF_flag (g : CheatGame) (b : Bool) :
    WF { g with ifLastClaimBluff := b } ↔ WF g := Iff.rfl

theorem totalCards_appendHistories (g : CheatGame) (ar : List ℤ) (s r ch : ℤ) :
    totalCards (appendHistories g ar s r ch) = totalCards g := by
  unfold totalCards; simp

theorem WF_appendHistories (g : CheatGame) (ar : List ℤ) (s r ch : ℤ) (hg : WF g) :
    WF (appendHistories g ar s r ch) := by
  unfold WF at *; simpa using hg

theorem totalCards_finishStep (g : CheatGame) : totalCards (finishStep g).1 = totalCards g := by
  unfold totalCards; simp

theorem WF_finishStep (g : CheatGame) (hg : WF g) : WF (finishStep g).1 := by
  unfold WF at *; simpa using hg

theorem totalCards_resolve_challenge (g : CheatGame) (hg : WF g) :
    totalCards (resolve_challenge g) = totalCards g := by
  obtain ⟨h0, h1, hp⟩ := hg
  unfold resolve_challenge
  split <;>
  · unfold setHand totalCards
    split <;> simp_all [hand, add_cards, sum_vecAdd, sum_replicate_zero] <;> ring

theorem WF_resolve_challenge (g : CheatGame) (hg : WF g) : WF (resolve_challenge g) := by
  obtain ⟨h0, h1, hp⟩ := hg
  unfold resolve_challenge
  split <;>
  · unfold setHand WF
    split <;> simp_all [hand, add_cards, length_vecAdd]

theorem totalCards_play (g : CheatGame) (c : List ℤ) (hg : WF g) (hc : c.length = 13) :
    totalCards (add_to_pile (setHand g g.currentPlayer
        (remove_cards (hand g g.currentPlayer) c)) c) = totalCards g ∧
    WF (add_to_pile (setHand g g.currentPlayer
        (remove_cards (hand g g.currentPlayer) c)) c) := by
  obtain ⟨h0, h1, hp⟩ := hg
  unfold add_to_pile setHand totalCards WF
  split <;>
    simp_all [hand, remove_cards, sum_vecSub, sum_vecAdd, length_vecSub, length_vecAdd] <;>
    ring

theorem getLastD_append_decode (s a : List ℤ) :
    (s ++ output_actions_to_history_actions a).getLastD 0 =
      (output_actions_to_history_actions a).getLastD 0 := by
  simp only [output_actions_to_history_actions]
  rw [← List.append_assoc, List.getLastD_concat, List.getLastD_concat]

theorem decodeCards_length (a : List ℤ) (ha : a.length = 70) :
    (((output_actions_to_history_actions a).drop 2).take 13).length = 13 := by
  simp [output_actions_to_history_actions, cardsPlayedOf, vecAdd, ha]

/-- Master case analysis of a non-raising `step` call: the bluff flag is never
cleared, the flat history either stays or grows by one record ending in the
decoded challenge bit, and (for well-shaped inputs) the card total is
conserved and shapes are preserved. -/
theorem step_effects (g : CheatGame) (a : List ℤ) (g' : CheatGame)
    (out : List ℤ × ℤ × Bool) (h : step g a = some (g', out)) :
    (g.ifLastClaimBluff = true → g'.ifLastClaimBluff = true) ∧
    (g'.state = g.state ∨
      g'.state.getLastD 0 = (output_actions_to_history_actions a).getLastD 0) ∧
    (WF g → a.length = 70 → totalCards g' = totalCards g ∧ WF g') := by
  simp only [step] at h
  split at h
  · simp at h
  · split at h
    · rw [Option.some.injEq, Prod.mk.injEq] at h
      obtain ⟨hg, -⟩ := h
      subst hg
      exact ⟨fun hf => hf, Or.inl rfl, fun hWF _ => ⟨rfl, hWF⟩⟩
    · split at h
      · rw [Option.some.injEq] at h
        have hg : _ = g' := congrArg Prod.fst h
        subst hg
        refine ⟨?_, ?_, ?_⟩
        · intro hf; simpa using hf
        · right
          simp only [finishStep_fst_state, resolve_challenge_state, appendHistories_state]
          exact getLastD_append_decode _ a
        · intro hWF ha
          have hwf2 : WF (appendHistories { g with numRounds := g.numRounds + 1 }
              (output_actions_to_history_actions a)
              ((output_actions_to_history_actions a).getD 0 0)
              ((output_actions_to_history_actions a).getD 1 0)
              ((output_actions_to_history_actions a).getLastD 0)) :=
            WF_appendHistories _ _ _ _ _ hWF
          constructor
          · rw [totalCards_finishStep, totalCards_resolve_challenge _ hwf2,
              totalCards_appendHistories]
            rfl
          · exact WF_finishStep _ (WF_resolve_challenge _ hwf2)
      · split at h
        · simp at h
        · next b heq =>
          rw [Option.some.injEq] at h
          have hg : _ = g' := congrArg Prod.fst h
          subst hg
          refine ⟨?_, ?_, ?_⟩
          · intro hf
            split <;> simpa using hf
          · right
            split <;>
            · simp only [finishStep_fst_state, add_to_pile_state, setHand_state,
                appendHistories_state]
              exact getLastD_append_decode _ a
          · intro hWF ha
            have hwf2 : WF (appendHistories { g with numRounds := g.numRounds + 1 }
                (output_actions_to_history_actions a)
                ((output_actions_to_history_actions a).getD 0 0)
                ((output_actions_to_history_actions a).getD 1 0)
                ((output_actions_to_history_actions a).getLastD 0)) :=
              WF_appendHistories _ _ _ _ _ hWF
            have hplay := totalCards_play _ _ hwf2 (decodeCards_length a ha)
            have htot := totalCards_appendHistories { g with numRounds := g.numRounds + 1 }
              (output_actions_to_history_actions a)
              ((output_actions_to_history_actions a).getD 0 0)
              ((output_actions_to_history_actions a).getD 1 0)
              ((output_actions_to_history_actions a).getLastD 0)
            split
            · exact ⟨by rw [totalCards_finishStep, totalCards_flag, hplay.1, htot]; rfl,
                WF_finishStep _ ((WF_flag _ _).mpr hplay.2)⟩
            · exact ⟨by rw [totalCards_finishStep, hplay.1, htot]; rfl,
                WF_finishStep _ hplay.2⟩

theorem runSteps_conserves (g : CheatGame) (as : List (List ℤ)) (g' : CheatGame)
    (hg : WF g) (ha : ∀ a ∈ as, a.length = 70) (h : runSteps g as = some g') :
    totalCards g' = totalCards g ∧ WF g' := by
  induction as generalizing g with
  | nil =>
    rw [runSteps, Option.some.injEq] at h
    subst h
    exact ⟨rfl, hg⟩
  | cons a as ih =>
    rw [runSteps] at h
    cases hs : step g a with
    | none => rw [hs] at h; simp at h
    | some p =>
      obtain ⟨g1, o⟩ := p
      rw [hs] at h
      have heff := (step_effects g a g1 o hs).2.2 hg (ha a (by simp))
      have htail := ih g1 heff.2 (fun b hb => ha b (by simp [hb])) h
      exact ⟨htail.1.trans heff.1, htail.2⟩

/-- Claim C7: for every run of non-raising steps from a reset state with 13-wide
hands and 70-wide action vectors (the engine's fixed shapes), every single
step conserves `sum(all hands) + sum(central pile)`, and the total after the
run equals the total initially dealt. -/
theorem conservation_of_cards :
    (∀ (g : CheatGame) (a : List ℤ) (g1 : CheatGame) (out : List ℤ × ℤ × Bool),
        WF g → a.length = 70 → step g a = some (g1, out) →
        totalCards g1 = totalCards g) ∧
    (∀ (h0 h1 : List ℤ) (m : ℕ) (as : List (List ℤ)) (g' : CheatGame),
        h0.length = 13 → h1.length = 13 → (∀ a ∈ as, a.length = 70) →
        runSteps (resetState h0 h1 m) as = some g' →
        totalCards g' = h0.sum + h1.sum) := by
  constructor
  · intro g a g1 out hg ha hs
    exact ((step_effects g a g1 out hs).2.2 hg ha).1
  · intro h0 h1 m as g' hl0 hl1 ha hrun
    have hwf : WF (resetState h0 h1 m) := ⟨hl0, hl1, by simp [resetState]⟩
    have := (runSteps_conserves (resetState h0 h1 m) as g' hwf ha hrun).1
    rw [this]
    simp [totalCards, resetState, sum_replicate_zero]

/-- Claim C7 witness. -/
theorem conservation_of_cards_witness :
    totalCards gPost = totalCards (resetState (e 0) ones13 2) ∧
    totalCards gPost = (e 0).sum + ones13.sum := by
  constructor
  · exact conservation_of_cards.1 (resetState (e 0) ones13 2) (playAction 0) gPost
      (infoPost, 0, false) ⟨rfl, rfl, rfl⟩ rfl (by decide)
  · exact conservation_of_cards.2 (e 0) ones13 2 [playAction 0] gPost rfl rfl
      (by decide) (by decide)

/-- Claim C8: a challenge action is judged legal by `is_valid_action` only if the
flat history is non-empty and its last recorded entry is not 1; and every
applied step either leaves the flat history unchanged (illegal action) or
extends it by one record whose last entry is the decoded challenge bit — so a
challenge applied by `step` stamps its bit at the end of the history and a
directly following challenge is rejected as illegal. -/
theorem no_double_challenge :
    (∀ (g : CheatGame) (s r : ℤ) (c : List ℤ) (ch : ℤ), ch ≠ 0 →
        is_valid_action g s r c ch = true →
        g.state ≠ [] ∧ g.state.getLastD 0 ≠ 1) ∧
    (∀ (g : CheatGame) (a : List ℤ) (g' : CheatGame) (out : List ℤ × ℤ × Bool),
        step g a = some (g', out) →
        g'.state = g.state ∨
          g'.state.getLastD 0 = (output_actions_to_history_actions a).getLastD 0) := by
  constructor
  · intro g s r c ch hch hval
    unfold is_valid_action at hval
    split at hval
    · exact absurd hval (by simp)
    · split at hval
      · exact absurd hval (by simp)
      · split at hval
        · exact absurd hval (by simp)
        · next hlen =>
          split at hval
          · exact absurd hval (by simp)
          · next hlast =>
            exact ⟨fun hnil => hlen (by rw [hnil]; rfl), hlast⟩
  · intro g a g' out hs
    exact (step_effects g a g' out hs).2.1

/-- Claim C8 witness. -/
theorem no_double_challenge_witness :
    (gW8.state ≠ [] ∧ gW8.state.getLastD 0 ≠ 1) ∧
    (gPost.state = (resetState (e 0) ones13 2).state ∨
      gPost.state.getLastD 0 =
        (output_actions_to_history_actions (playAction 0)).getLastD 0) := by
  constructor
  · exact no_double_challenge.1 gW8 0 2 (List.replicate 13 0) 1 (by decide) (by decide)
  · exact no_double_challenge.2 (resetState (e 0) ones13 2) (playAction 0) gPost
      (infoPost, 0, false) (by decide)

/-- Claim C10: along every run of non-raising steps, once the last-claim-was-bluff
flag is true it stays true — no step ever clears it — and the reset state has
the flag cleared to false. -/
theorem bluff_flag_monotone :
    (∀ (g : CheatGame) (as : List (List ℤ)) (g' : CheatGame),
        runSteps g as = some g' → g.ifLastClaimBluff = true →
        g'.ifLastClaimBluff = true) ∧
    (∀ (h0 h1 : List ℤ) (m : ℕ), (resetState h0 h1 m).ifLastClaimBluff = false) := by
  constructor
  · intro g as
    induction as generalizing g with
    | nil =>
      intro g' h hf
      rw [runSteps, Option.some.injEq] at h
      subst h
      exact hf
    | cons a as ih =>
      intro g' h hf
      rw [runSteps] at h
      cases hs : step g a with
      | none => rw [hs] at h; simp at h
      | some p =>
        obtain ⟨g1, o⟩ := p
        rw [hs] at h
        exact ih g1 g' h ((step_effects g a g1 o hs).1 hf)
  · intro h0 h1 m
    rfl

/-- Claim C10 witness. -/
theorem bluff_flag_monotone_witness :
    gFlaggedPost.ifLastClaimBluff = true ∧
    (resetState (e 0) ones13 2).ifLastClaimBluff = false := by
  constructor
  · exact bluff_flag_monotone.1 gFlagged [playAction 0] gFlaggedPost (by decide) rfl
  · exact bluff_flag_monotone.2 (e 0) ones13 2

end CheatPy
